import Mathlib

/-!
Shallow embedding of the snake game logic from `src/main.rs`.

Machine integers (`u16`) are modelled as `Nat` with explicit wrapping
`% 65536` at every arithmetic operation of the source that can overflow
or underflow (release-profile semantics: `+`/`-` wrap; `%` by zero
panics).  Panics (`unwrap` on an empty list, `assert!` failure,
remainder by zero) are modelled as `Option.none`.  The random number
generator is modelled by passing raw `u16` draws explicitly: `Coord.rand`
takes the two raw draws it consumes, and the unbounded rejection-sampling
loop of food relocation takes a list of draw pairs as fuel and returns
`none` when the fuel is exhausted before a free cell is found.
-/

/-- One step of u16 wrapping: reduce modulo 2^16. -/
def wrap16 (a : Nat) : Nat := a % 65536

/-- Wrapping u16 subtraction `a - b` (valid model for `a b < 65536`). -/
def sub16 (a b : Nat) : Nat := (a + 65536 - b) % 65536

/-- `enum Direction` from the source. -/
inductive Direction where
  | Up
  | Down
  | Left
  | Right
deriving DecidableEq, Repr

/-- `Direction::opposite` from the source. -/
def Direction.opposite : Direction → Direction
  | .Up => .Down
  | .Down => .Up
  | .Left => .Right
  | .Right => .Left

/-- `struct Size(u16, u16)` from the source. -/
structure Size where
  x : Nat
  y : Nat
deriving DecidableEq, Repr

/-- The `<=` of the `#[derive(PartialOrd)]` on `Size`: lexicographic
comparison of the two fields, first field first. -/
def Size.le_lex (a b : Size) : Bool :=
  decide (a.x < b.x) || (decide (a.x = b.x) && decide (a.y ≤ b.y))

/-- `struct Coord(u16, u16)` from the source. -/
structure Coord where
  x : Nat
  y : Nat
deriving DecidableEq, Repr

/-- `Coord::adjascent` from the source: shift one cell in the given
direction, with u16 wrapping arithmetic. -/
def Coord.adjascent (c : Coord) (dir : Direction) : Coord :=
  match dir with
  | .Up => ⟨c.x, sub16 c.y 1⟩
  | .Down => ⟨c.x, wrap16 (c.y + 1)⟩
  | .Left => ⟨sub16 c.x 1, c.y⟩
  | .Right => ⟨wrap16 (c.x + 1), c.y⟩

/-- `Coord::rand` from the source, as a function of the two raw `u16`
draws `r0`, `r1` produced by `rng.gen::<u16>()`.  The `assert!(min <= max)`
uses the derived lexicographic order on `Size`; a failed assertion is
`none`.  The modulus `1 + max.axis - min.axis` is computed with u16
wrapping; if it wraps to `0` the `%` panics (`none`). -/
def Coord.rand (min max : Size) (r0 r1 : Nat) : Option Coord :=
  if Size.le_lex min max then
    let n0 := sub16 (wrap16 (1 + max.x)) min.x
    let n1 := sub16 (wrap16 (1 + max.y)) min.y
    if n0 = 0 ∨ n1 = 0 then none
    else some ⟨wrap16 (min.x + r0 % n0), wrap16 (min.y + r1 % n1)⟩
  else none

/-- `struct SnakeGameLogic` from the source.  `body` is head-first:
`body[0]` is the head, the last element is the tail. -/
structure SnakeGameLogic where
  field_size : Size
  body : List Coord
  pos_feed : Coord
  dir : Direction
deriving DecidableEq, Repr

namespace SnakeGameLogic

/-- `SnakeGameLogic::new` from the source. -/
def new (field_size : Size) : SnakeGameLogic :=
  { field_size
    body := [⟨4, 2⟩, ⟨3, 2⟩, ⟨2, 2⟩]
    pos_feed := ⟨10, 10⟩
    dir := .Right }

/-- `SnakeGameLogic::is_inner_field` from the source:
`(1..w-1).contains(c.0) && (1..h-1).contains(c.1)`, the `w - 1` and
`h - 1` computed with u16 wrapping. -/
def is_inner_field (s : SnakeGameLogic) (c : Coord) : Bool :=
  (decide (1 ≤ c.x) && decide (c.x < sub16 s.field_size.x 1)) &&
  (decide (1 ≤ c.y) && decide (c.y < sub16 s.field_size.y 1))

/-- `SnakeGameLogic::set_dir` from the source. -/
def set_dir (s : SnakeGameLogic) (dir : Direction) : SnakeGameLogic :=
  if s.dir.opposite ≠ dir then { s with dir := dir } else s

/-- The food-relocation loop of `SnakeGameLogic::r#move` (the `'outer`
loop): repeatedly draw `Coord::rand(Size(1,1), max)` and retry while the
candidate hits a body cell.  `rngs` is the list of raw draw pairs the rng
would produce; `none` models both a panic inside `rand` and running out
of fuel. -/
def findFeed (max : Size) (body : List Coord) : List (Nat × Nat) → Option Coord
  | [] => none
  | (r0, r1) :: rs =>
    match Coord.rand ⟨1, 1⟩ max r0 r1 with
    | none => none
    | some c => if c ∈ body then findFeed max body rs else some c

/-- `SnakeGameLogic::r#move` from the source.  Returns
`some (stillAlive, newState)`; `none` models a panic (`unwrap` on an
empty body, panic inside `Coord::rand`) or exhausted rng fuel in the
food-relocation loop. -/
def move (s : SnakeGameLogic) (rngs : List (Nat × Nat)) :
    Option (Bool × SnakeGameLogic) :=
  match s.body with
  | [] => none
  | head :: _ =>
    let adj := head.adjascent s.dir
    if !s.is_inner_field adj then some (false, s)
    else
      let body1 := adj :: s.body
      if adj = s.pos_feed then
        let max : Size := ⟨sub16 s.field_size.x 2, sub16 s.field_size.y 2⟩
        match findFeed max body1 rngs with
        | none => none
        | some f =>
          let s' := { s with body := body1, pos_feed := f }
          some (if adj ∈ body1.tail then false else true, s')
      else
        let body2 := body1.dropLast
        let s' := { s with body := body2 }
        some (if adj ∈ body2.tail then false else true, s')

/-- The state invariant of claim C3: the body has at least the three
seed cells and every body cell lies strictly inside the playable
interior. -/
def Inv (s : SnakeGameLogic) : Prop :=
  3 ≤ s.body.length ∧ ∀ c ∈ s.body, s.is_inner_field c = true

instance (s : SnakeGameLogic) : Decidable s.Inv := by
  unfold Inv; infer_instance

end SnakeGameLogic

/-- Number of raw `u16` first draws that make `Coord.rand min max` yield
x-coordinate `v` (the second draw fixed to `0`; the x-coordinate does not
depend on it). -/
def xPreimages (min max : Size) (v : Nat) : Nat :=
  ((Finset.range 65536).filter
    (fun r => (Coord.rand min max r 0).map Coord.x = some v)).card

/-- Number of raw `u16` second draws that make `Coord.rand min max`
yield y-coordinate `v` (the first draw fixed to `0`; the y-coordinate
does not depend on it). -/
def yPreimages (min max : Size) (v : Nat) : Nat :=
  ((Finset.range 65536).filter
    (fun r => (Coord.rand min max 0 r).map Coord.y = some v)).card

example : (SnakeGameLogic.new ⟨20, 20⟩).move [] =
    some (true, { field_size := ⟨20, 20⟩,
                  body := [⟨5, 2⟩, ⟨4, 2⟩, ⟨3, 2⟩],
                  pos_feed := ⟨10, 10⟩, dir := .Right }) := by decide

namespace SnakeGameLogic

/-- Unfolding `move` on the wall-collision path: the next head cell is
outside the interior, so the call returns `false` with the state left
untouched. -/
theorem move_wall (s : SnakeGameLogic) (head : Coord) (rest : List Coord)
    (rngs : List (Nat × Nat)) (hb : s.body = head :: rest)
    (hw : s.is_inner_field (head.adjascent s.dir) = false) :
    s.move rngs = some (false, s) := by
  unfold move
  rw [hb]
  simp [hw]

/-- Unfolding `move` on the growth path: the next head cell is interior
and hits the food, so the head is pushed, the tail kept, and the food
relocated through the rejection-sampling loop. -/
theorem move_grow (s : SnakeGameLogic) (head : Coord) (rest : List Coord)
    (rngs : List (Nat × Nat)) (hb : s.body = head :: rest)
    (hinner : s.is_inner_field (head.adjascent s.dir) = true)
    (hfood : head.adjascent s.dir = s.pos_feed) :
    s.move rngs =
      (findFeed ⟨sub16 s.field_size.x 2, sub16 s.field_size.y 2⟩
          (head.adjascent s.dir :: s.body) rngs).map
        (fun f => (if head.adjascent s.dir ∈ s.body then false else true,
          { s with body := head.adjascent s.dir :: s.body, pos_feed := f })) := by
  rw [hfood] at hinner ⊢
  unfold move
  rw [hb]
  simp only [← hb, hinner, hfood, Bool.not_true, Bool.false_eq_true, if_false,
    List.tail_cons, if_true]
  cases h : findFeed ⟨sub16 s.field_size.x 2, sub16 s.field_size.y 2⟩
      (s.pos_feed :: s.body) rngs <;> simp [h]

/-- Unfolding `move` on the plain-step path: the next head cell is
interior and misses the food, so the head is pushed and the tail
dropped. -/
theorem move_step (s : SnakeGameLogic) (head : Coord) (rest : List Coord)
    (rngs : List (Nat × Nat)) (hb : s.body = head :: rest)
    (hinner : s.is_inner_field (head.adjascent s.dir) = true)
    (hfood : head.adjascent s.dir ≠ s.pos_feed) :
    s.move rngs =
      some (if head.adjascent s.dir ∈ s.body.dropLast then false else true,
        { s with body := (head.adjascent s.dir :: s.body).dropLast }) := by
  unfold move
  rw [hb]
  simp only [← hb, hinner, hfood, Bool.not_true, Bool.false_eq_true, if_false,
    if_true, if_neg hfood]
  rw [hb]
  simp [List.dropLast_cons₂]

/-- No cell with a coordinate of 65535 (the value an underflowing u16
decrement wraps to) ever passes `is_inner_field`, whatever the field
size. -/
theorem is_inner_field_big_false (s : SnakeGameLogic) (c : Coord)
    (h : c.x = 65535 ∨ c.y = 65535) : s.is_inner_field c = false := by
  have hx : sub16 s.field_size.x 1 < 65536 :=
    Nat.mod_lt _ (by norm_num)
  have hy : sub16 s.field_size.y 1 < 65536 :=
    Nat.mod_lt _ (by norm_num)
  simp only [is_inner_field, Bool.and_eq_false_iff, decide_eq_false_iff_not,
    not_lt]
  rcases h with h | h
  · exact Or.inl (Or.inr (by omega))
  · exact Or.inr (Or.inr (by omega))

end SnakeGameLogic

/-- Claim C5: whenever the computed next head position lies outside the
interior play area, `move` returns `false` with the state completely
unchanged (body, food and direction as before the call): the wall check
runs before any mutation. -/
theorem c5_wall_death_no_mutation (s : SnakeGameLogic) (head : Coord)
    (rest : List Coord) (rngs : List (Nat × Nat)) (hb : s.body = head :: rest)
    (hw : s.is_inner_field (head.adjascent s.dir) = false) :
    s.move rngs = some (false, s) :=
  SnakeGameLogic.move_wall s head rest rngs hb hw

/-- Witness for C5: a head at (18,2) moving Right on the 20×20 field hits
the wall column 19 and dies with the state unchanged. -/
theorem c5_wall_death_no_mutation_witness :
    (SnakeGameLogic.mk ⟨20, 20⟩ [⟨18, 2⟩] ⟨10, 10⟩ .Right).move [] =
      some (false, SnakeGameLogic.mk ⟨20, 20⟩ [⟨18, 2⟩] ⟨10, 10⟩ .Right) :=
  c5_wall_death_no_mutation _ ⟨18, 2⟩ [] [] rfl (by decide)

/-- Claim C6: `set_dir d` sets the direction to `d` when `d` is not the
opposite of the current direction, leaves it unchanged when it is, and
never touches the field size, body or food position. -/
theorem c6_set_dir_spec (s : SnakeGameLogic) (d : Direction) :
    (d ≠ s.dir.opposite → (s.set_dir d).dir = d) ∧
    (d = s.dir.opposite → (s.set_dir d).dir = s.dir) ∧
    (s.set_dir d).field_size = s.field_size ∧
    (s.set_dir d).body = s.body ∧
    (s.set_dir d).pos_feed = s.pos_feed := by
  unfold SnakeGameLogic.set_dir
  by_cases h : s.dir.opposite = d
  · simp [h]
  · simp [h]
    intro h'
    exact absurd h'.symm h

/-- Witness for C6: from the initial direction Right, requesting Up
succeeds while requesting Left (the opposite of Right) is a no-op. -/
theorem c6_set_dir_spec_witness :
    ((SnakeGameLogic.new ⟨20, 20⟩).set_dir .Up).dir = .Up ∧
    ((SnakeGameLogic.new ⟨20, 20⟩).set_dir .Left).dir = .Right :=
  ⟨(c6_set_dir_spec (SnakeGameLogic.new ⟨20, 20⟩) .Up).1 (by decide),
   (c6_set_dir_spec (SnakeGameLogic.new ⟨20, 20⟩) .Left).2.1 (by decide)⟩

/-- Claim C9: decrementing a zero u16 coordinate (Up with y = 0, Left
with x = 0) wraps to 65535, a value `is_inner_field` rejects for every
field size, so `move` treats it as a wall collision and returns `false`
without mutating the state: the underflow is never silently accepted as
a valid cell. -/
theorem c9_underflow_is_wall (s : SnakeGameLogic) :
    (∀ c : Coord, c.y = 0 →
      (c.adjascent .Up).y = 65535 ∧ s.is_inner_field (c.adjascent .Up) = false) ∧
    (∀ c : Coord, c.x = 0 →
      (c.adjascent .Left).x = 65535 ∧ s.is_inner_field (c.adjascent .Left) = false) ∧
    (∀ (head : Coord) (rest : List Coord) (rngs : List (Nat × Nat)),
      s.body = head :: rest →
      (s.dir = .Up ∧ head.y = 0) ∨ (s.dir = .Left ∧ head.x = 0) →
      s.move rngs = some (false, s)) := by
  have hup : ∀ c : Coord, c.y = 0 → (c.adjascent .Up).y = 65535 := by
    intro c hc
    simp [Coord.adjascent, sub16, hc]
  have hleft : ∀ c : Coord, c.x = 0 → (c.adjascent .Left).x = 65535 := by
    intro c hc
    simp [Coord.adjascent, sub16, hc]
  refine ⟨fun c hc => ⟨hup c hc, ?_⟩, fun c hc => ⟨hleft c hc, ?_⟩, ?_⟩
  · exact s.is_inner_field_big_false _ (Or.inr (hup c hc))
  · exact s.is_inner_field_big_false _ (Or.inl (hleft c hc))
  · rintro head rest rngs hb (⟨hdir, hc⟩ | ⟨hdir, hc⟩) <;>
      refine SnakeGameLogic.move_wall s head rest rngs hb ?_ <;> rw [hdir]
    · exact s.is_inner_field_big_false _ (Or.inr (hup head hc))
    · exact s.is_inner_field_big_false _ (Or.inl (hleft head hc))

/-- Witness for C9: a head at (5,0) facing Up on the 20×20 field: the
wrapped neighbour has y = 65535, is rejected by the interior check, and
`move` reports death with the state unchanged. -/
theorem c9_underflow_is_wall_witness :
    ((Coord.mk 5 0).adjascent .Up).y = 65535 ∧
    (SnakeGameLogic.mk ⟨20, 20⟩ [⟨5, 0⟩] ⟨10, 10⟩ .Up).is_inner_field
      ((Coord.mk 5 0).adjascent .Up) = false ∧
    (SnakeGameLogic.mk ⟨20, 20⟩ [⟨5, 0⟩] ⟨10, 10⟩ .Up).move [] =
      some (false, SnakeGameLogic.mk ⟨20, 20⟩ [⟨5, 0⟩] ⟨10, 10⟩ .Up) := by
  have h := c9_underflow_is_wall (SnakeGameLogic.mk ⟨20, 20⟩ [⟨5, 0⟩] ⟨10, 10⟩ .Up)
  exact ⟨(h.1 ⟨5, 0⟩ rfl).1, (h.1 ⟨5, 0⟩ rfl).2,
    h.2.2 ⟨5, 0⟩ [] [] rfl (Or.inl ⟨rfl, rfl⟩)⟩

/-- Moving one cell in any direction never yields the starting cell: the
wrapping u16 increment and decrement of a single component have no
fixpoint. -/
theorem Coord.adjascent_ne (c : Coord) (dir : Direction) :
    c.adjascent dir ≠ c := by
  obtain ⟨cx, cy⟩ := c
  cases dir <;> intro h <;>
    simp only [Coord.adjascent, Coord.mk.injEq, sub16, wrap16, true_and,
      and_true] at h <;>
    omega

/-- Claim C1: `move` reports death exactly when the computed next head
cell is outside the interior bounds or coincides with a body cell other
than the new head itself, the body compared being the one after the head
push and tail pop (`s'.body.tail`), so that stepping into the cell the
tail just vacated is not a collision. -/
theorem c1_dead_iff (s : SnakeGameLogic) (head : Coord) (rest : List Coord)
    (rngs : List (Nat × Nat)) (alive : Bool) (s' : SnakeGameLogic)
    (hb : s.body = head :: rest)
    (hm : s.move rngs = some (alive, s')) :
    alive = false ↔
      (s.is_inner_field (head.adjascent s.dir) = false ∨
       head.adjascent s.dir ∈ s'.body.tail) := by
  by_cases hw : s.is_inner_field (head.adjascent s.dir) = true
  · by_cases hfood : head.adjascent s.dir = s.pos_feed
    · rw [SnakeGameLogic.move_grow s head rest rngs hb hw hfood] at hm
      obtain ⟨f, _, hF⟩ := Option.map_eq_some'.mp hm
      obtain ⟨ha, hs⟩ := Prod.mk.injEq .. ▸ hF
      subst hs
      simp only [hw, Bool.true_eq_false, false_or, List.tail_cons, ← ha]
      by_cases hmem : head.adjascent s.dir ∈ s.body <;> simp [hmem]
    · rw [SnakeGameLogic.move_step s head rest rngs hb hw hfood] at hm
      obtain ⟨ha, hs⟩ := Prod.mk.injEq .. ▸ (Option.some.inj hm)
      subst hs
      rw [hb, List.dropLast_cons₂, List.tail_cons, ← hb]
      simp only [hw, Bool.true_eq_false, false_or, ← ha]
      by_cases hmem : head.adjascent s.dir ∈ s.body.dropLast <;> simp [hmem]
  · have hw' : s.is_inner_field (head.adjascent s.dir) = false := by
      simpa using hw
    rw [SnakeGameLogic.move_wall s head rest rngs hb hw'] at hm
    obtain ⟨ha, _⟩ := Prod.mk.injEq .. ▸ (Option.some.inj hm)
    simp [← ha, hw']

set_option maxRecDepth 8192 in
/-- Witness for C1: a snake curled as (5,5),(6,5),(6,6),(5,6) moving Down
steps onto (5,6), the cell its own tail vacates this very tick: the
characterisation certifies the step is not a collision and the snake
stays alive. -/
theorem c1_dead_iff_witness :
    (true = false ↔
      ((SnakeGameLogic.mk ⟨20, 20⟩ [⟨5, 5⟩, ⟨6, 5⟩, ⟨6, 6⟩, ⟨5, 6⟩] ⟨10, 10⟩
          .Down).is_inner_field ((Coord.mk 5 5).adjascent .Down) = false ∨
       (Coord.mk 5 5).adjascent .Down ∈
         (SnakeGameLogic.mk ⟨20, 20⟩ [⟨5, 6⟩, ⟨5, 5⟩, ⟨6, 5⟩, ⟨6, 6⟩] ⟨10, 10⟩
           .Down).body.tail)) :=
  c1_dead_iff
    (SnakeGameLogic.mk ⟨20, 20⟩ [⟨5, 5⟩, ⟨6, 5⟩, ⟨6, 6⟩, ⟨5, 6⟩] ⟨10, 10⟩ .Down)
    ⟨5, 5⟩ [⟨6, 5⟩, ⟨6, 6⟩, ⟨5, 6⟩] [] true
    (SnakeGameLogic.mk ⟨20, 20⟩ [⟨5, 6⟩, ⟨5, 5⟩, ⟨6, 5⟩, ⟨6, 6⟩] ⟨10, 10⟩ .Down)
    rfl (by decide)

/-- `is_inner_field` depends only on the field size, which `move` and
`set_dir` never change. -/
theorem SnakeGameLogic.is_inner_field_eq_of_field (s' s : SnakeGameLogic)
    (h : s'.field_size = s.field_size) (c : Coord) :
    s'.is_inner_field c = s.is_inner_field c := by
  simp [SnakeGameLogic.is_inner_field, h]

/-- Claim C2 (amended): a `move` call never decreases the body length,
and increases it by exactly 1 exactly when the computed next head cell
is inside the interior and equals the food position held before the
call.  (The interior condition is forced: on the wall-death path the
length is unchanged even if the blocked next head cell happens to equal
an out-of-bounds food position.) -/
theorem c2_length_spec (s : SnakeGameLogic) (head : Coord) (rest : List Coord)
    (rngs : List (Nat × Nat)) (alive : Bool) (s' : SnakeGameLogic)
    (hb : s.body = head :: rest)
    (hm : s.move rngs = some (alive, s')) :
    s.body.length ≤ s'.body.length ∧
    (s'.body.length = s.body.length + 1 ↔
      (s.is_inner_field (head.adjascent s.dir) = true ∧
       head.adjascent s.dir = s.pos_feed)) := by
  by_cases hw : s.is_inner_field (head.adjascent s.dir) = true
  · by_cases hf : head.adjascent s.dir = s.pos_feed
    · rw [SnakeGameLogic.move_grow s head rest rngs hb hw hf] at hm
      obtain ⟨f, _, hF⟩ := Option.map_eq_some'.mp hm
      obtain ⟨_, hs⟩ := Prod.mk.injEq .. ▸ hF
      subst hs
      refine ⟨by simp, ?_, fun _ => by simp⟩
      intro _
      exact ⟨hw, hf⟩
    · rw [SnakeGameLogic.move_step s head rest rngs hb hw hf] at hm
      obtain ⟨_, hs⟩ := Prod.mk.injEq .. ▸ (Option.some.inj hm)
      subst hs
      have hlen : ((head.adjascent s.dir :: s.body).dropLast).length =
          s.body.length := by
        simp
      refine ⟨by simp [hlen], ?_, ?_⟩
      · intro hcontra
        simp only at hcontra
        rw [hlen] at hcontra
        omega
      · rintro ⟨_, h2⟩
        exact absurd h2 hf
  · have hw' : s.is_inner_field (head.adjascent s.dir) = false := by
      simpa using hw
    rw [SnakeGameLogic.move_wall s head rest rngs hb hw'] at hm
    obtain ⟨_, hs⟩ := Prod.mk.injEq .. ▸ (Option.some.inj hm)
    subst hs
    refine ⟨Nat.le_refl _, ?_, ?_⟩
    · intro hcontra
      omega
    · rintro ⟨h1, _⟩
      rw [hw'] at h1
      exact absurd h1 (by simp)

/-- Witness for C2: a one-cell snake at (9,10) facing Right eats the
food at (10,10); the body grows from length 1 to length 2 and the
characterisation's right-hand side holds. -/
theorem c2_length_spec_witness :
    (SnakeGameLogic.mk ⟨20, 20⟩ [⟨9, 10⟩] ⟨10, 10⟩ .Right).body.length ≤
      (SnakeGameLogic.mk ⟨20, 20⟩ [⟨10, 10⟩, ⟨9, 10⟩] ⟨1, 1⟩ .Right).body.length ∧
    ((SnakeGameLogic.mk ⟨20, 20⟩ [⟨10, 10⟩, ⟨9, 10⟩] ⟨1, 1⟩ .Right).body.length =
        (SnakeGameLogic.mk ⟨20, 20⟩ [⟨9, 10⟩] ⟨10, 10⟩ .Right).body.length + 1 ↔
      ((SnakeGameLogic.mk ⟨20, 20⟩ [⟨9, 10⟩] ⟨10, 10⟩ .Right).is_inner_field
          ((Coord.mk 9 10).adjascent .Right) = true ∧
       (Coord.mk 9 10).adjascent .Right =
         (SnakeGameLogic.mk ⟨20, 20⟩ [⟨9, 10⟩] ⟨10, 10⟩ .Right).pos_feed)) :=
  c2_length_spec (SnakeGameLogic.mk ⟨20, 20⟩ [⟨9, 10⟩] ⟨10, 10⟩ .Right)
    ⟨9, 10⟩ [] [(0, 0)] true
    (SnakeGameLogic.mk ⟨20, 20⟩ [⟨10, 10⟩, ⟨9, 10⟩] ⟨1, 1⟩ .Right)
    rfl (by decide)

/-- Counterexample for C2 as frozen: in the state with field 20×20, body
[(18,5)], food (19,5) and direction Right, the computed next head (19,5)
equals the pre-call food position, yet `move` dies on the wall check and
the body length stays 1 instead of growing to 2 — so "length increases
by 1 exactly when the new head equals the pre-tick food" fails without
an interior-bounds proviso. -/
theorem c2_counterexample :
    ((Coord.mk 18 5).adjascent .Right =
      (SnakeGameLogic.mk ⟨20, 20⟩ [⟨18, 5⟩] ⟨19, 5⟩ .Right).pos_feed) ∧
    (SnakeGameLogic.mk ⟨20, 20⟩ [⟨18, 5⟩] ⟨19, 5⟩ .Right).move [] =
      some (false, SnakeGameLogic.mk ⟨20, 20⟩ [⟨18, 5⟩] ⟨19, 5⟩ .Right) ∧
    (SnakeGameLogic.mk ⟨20, 20⟩ [⟨18, 5⟩] ⟨19, 5⟩ .Right).body.length = 1 := by
  refine ⟨by decide, by decide, by decide⟩

/-- Claim C3: the invariant "body length at least 3 and every body cell
strictly inside the playable interior" holds for the freshly constructed
20×20 game and is preserved by `set_dir` and by every `move` call,
whether it reports alive or dead. -/
theorem c3_invariant :
    (SnakeGameLogic.new ⟨20, 20⟩).Inv ∧
    (∀ (s : SnakeGameLogic) (d : Direction), s.Inv → (s.set_dir d).Inv) ∧
    (∀ (s : SnakeGameLogic) (rngs : List (Nat × Nat)) (alive : Bool)
        (s' : SnakeGameLogic), s.Inv → s.move rngs = some (alive, s') →
        s'.Inv) := by
  refine ⟨by decide, ?_, ?_⟩
  · intro s d h
    unfold SnakeGameLogic.set_dir
    split <;> exact h
  · intro s rngs alive s' h hm
    obtain ⟨h1, h2⟩ := h
    obtain ⟨head, rest, hb⟩ : ∃ head rest, s.body = head :: rest := by
      cases hbody : s.body with
      | nil =>
        rw [hbody] at h1
        simp at h1
      | cons a l => exact ⟨a, l, rfl⟩
    by_cases hw : s.is_inner_field (head.adjascent s.dir) = true
    · by_cases hf : head.adjascent s.dir = s.pos_feed
      · rw [SnakeGameLogic.move_grow s head rest rngs hb hw hf] at hm
        obtain ⟨f, _, hF⟩ := Option.map_eq_some'.mp hm
        obtain ⟨_, hs⟩ := Prod.mk.injEq .. ▸ hF
        subst hs
        refine ⟨by simpa using Nat.le_succ_of_le h1, ?_⟩
        intro c hc
        show s.is_inner_field c = true
        rcases (by simpa using hc :
            c = head.adjascent s.dir ∨ c ∈ s.body) with rfl | hc'
        · exact hw
        · exact h2 c hc'
      · rw [SnakeGameLogic.move_step s head rest rngs hb hw hf] at hm
        obtain ⟨_, hs⟩ := Prod.mk.injEq .. ▸ (Option.some.inj hm)
        subst hs
        refine ⟨by simpa using h1, ?_⟩
        intro c hc
        show s.is_inner_field c = true
        have hc' : c ∈ head.adjascent s.dir :: s.body :=
          List.mem_of_mem_dropLast (by simpa using hc)
        rcases (by simpa using hc' :
            c = head.adjascent s.dir ∨ c ∈ s.body) with rfl | hcc
        · exact hw
        · exact h2 c hcc
    · have hw' : s.is_inner_field (head.adjascent s.dir) = false := by
        simpa using hw
      rw [SnakeGameLogic.move_wall s head rest rngs hb hw'] at hm
      obtain ⟨_, hs⟩ := Prod.mk.injEq .. ▸ (Option.some.inj hm)
      subst hs
      exact ⟨h1, h2⟩

/-- Witness for C3: the invariant holds after turning Up from the seed
state and after the first tick of the seed state. -/
theorem c3_invariant_witness :
    ((SnakeGameLogic.new ⟨20, 20⟩).set_dir .Up).Inv ∧
    (SnakeGameLogic.mk ⟨20, 20⟩ [⟨5, 2⟩, ⟨4, 2⟩, ⟨3, 2⟩] ⟨10, 10⟩ .Right).Inv :=
  ⟨c3_invariant.2.1 (SnakeGameLogic.new ⟨20, 20⟩) .Up (by decide),
   c3_invariant.2.2 (SnakeGameLogic.new ⟨20, 20⟩) [] true
     (SnakeGameLogic.mk ⟨20, 20⟩ [⟨5, 2⟩, ⟨4, 2⟩, ⟨3, 2⟩] ⟨10, 10⟩ .Right)
     (by decide) (by decide)⟩

/-- A food candidate accepted by the rejection-sampling loop misses
every body cell and was produced by `Coord.rand ⟨1,1⟩ max` on some pair
of raw draws. -/
theorem SnakeGameLogic.findFeed_some (max : Size) (body : List Coord)
    (rngs : List (Nat × Nat)) (f : Coord)
    (h : SnakeGameLogic.findFeed max body rngs = some f) :
    f ∉ body ∧ ∃ r0 r1, Coord.rand ⟨1, 1⟩ max r0 r1 = some f := by
  induction rngs with
  | nil => simp [SnakeGameLogic.findFeed] at h
  | cons r rs ih =>
    obtain ⟨r0, r1⟩ := r
    rw [SnakeGameLogic.findFeed] at h
    split at h
    · exact absurd h (by simp)
    · rename_i c hr
      by_cases hmem : c ∈ body
      · rw [if_pos hmem] at h
        exact ih h
      · rw [if_neg hmem] at h
        obtain rfl := Option.some.inj h
        exact ⟨hmem, r0, r1, hr⟩

/-- Bounds of `Coord.rand ⟨1,1⟩ ⟨mx,my⟩`: whenever it succeeds on
in-range u16 maxima, both coordinates land in `[1, mx] × [1, my]`. -/
theorem Coord.rand_one_bounds (mx my r0 r1 : Nat) (f : Coord)
    (hx1 : 1 ≤ mx) (hx2 : mx ≤ 65534) (hy1 : 1 ≤ my) (hy2 : my ≤ 65534)
    (h : Coord.rand ⟨1, 1⟩ ⟨mx, my⟩ r0 r1 = some f) :
    1 ≤ f.x ∧ f.x ≤ mx ∧ 1 ≤ f.y ∧ f.y ≤ my := by
  have hlex : Size.le_lex ⟨1, 1⟩ ⟨mx, my⟩ = true := by
    simp only [Size.le_lex, Bool.or_eq_true, Bool.and_eq_true, decide_eq_true_eq]
    omega
  have hn0 : sub16 (wrap16 (1 + mx)) 1 = mx := by
    simp only [sub16, wrap16]
    omega
  have hn1 : sub16 (wrap16 (1 + my)) 1 = my := by
    simp only [sub16, wrap16]
    omega
  simp only [Coord.rand, hlex, if_true, hn0, hn1] at h
  rw [if_neg (by omega)] at h
  obtain rfl := (Option.some.inj h)
  have hm0 : r0 % mx < mx := Nat.mod_lt _ (by omega)
  have hm1 : r1 % my < my := Nat.mod_lt _ (by omega)
  refine ⟨?_, ?_, ?_, ?_⟩ <;> simp only [wrap16] <;> omega

/-- Claim C4: after a growth tick (next head interior and on the food),
the relocated food misses every cell of the grown body and lies in the
interior range `[1, w-2] × [1, h-2]`. -/
theorem c4_food_placement (s : SnakeGameLogic) (head : Coord)
    (rest : List Coord) (rngs : List (Nat × Nat)) (alive : Bool)
    (s' : SnakeGameLogic) (hb : s.body = head :: rest)
    (hwx : 3 ≤ s.field_size.x) (hwx2 : s.field_size.x ≤ 65535)
    (hwy : 3 ≤ s.field_size.y) (hwy2 : s.field_size.y ≤ 65535)
    (hinner : s.is_inner_field (head.adjascent s.dir) = true)
    (hfood : head.adjascent s.dir = s.pos_feed)
    (hm : s.move rngs = some (alive, s')) :
    s'.pos_feed ∉ s'.body ∧
    1 ≤ s'.pos_feed.x ∧ s'.pos_feed.x ≤ s.field_size.x - 2 ∧
    1 ≤ s'.pos_feed.y ∧ s'.pos_feed.y ≤ s.field_size.y - 2 := by
  rw [SnakeGameLogic.move_grow s head rest rngs hb hinner hfood] at hm
  obtain ⟨f, hfind, hF⟩ := Option.map_eq_some'.mp hm
  obtain ⟨_, hs⟩ := Prod.mk.injEq .. ▸ hF
  subst hs
  obtain ⟨hnotmem, r0, r1, hr⟩ := SnakeGameLogic.findFeed_some _ _ _ _ hfind
  have hsx : sub16 s.field_size.x 2 = s.field_size.x - 2 := by
    simp only [sub16]
    omega
  have hsy : sub16 s.field_size.y 2 = s.field_size.y - 2 := by
    simp only [sub16]
    omega
  rw [hsx, hsy] at hr
  have hbnd := Coord.rand_one_bounds (s.field_size.x - 2) (s.field_size.y - 2)
    r0 r1 f (by omega) (by omega) (by omega) (by omega) hr
  exact ⟨hnotmem, hbnd.1, hbnd.2.1, hbnd.2.2.1, hbnd.2.2.2⟩

/-- Witness for C4: the one-cell snake at (9,10) eats the food at
(10,10); with raw draws (0,0) the relocated food is (1,1), which misses
the grown body and sits inside `[1,18] × [1,18]`. -/
theorem c4_food_placement_witness :
    (SnakeGameLogic.mk ⟨20, 20⟩ [⟨10, 10⟩, ⟨9, 10⟩] ⟨1, 1⟩ .Right).pos_feed ∉
      (SnakeGameLogic.mk ⟨20, 20⟩ [⟨10, 10⟩, ⟨9, 10⟩] ⟨1, 1⟩ .Right).body ∧
    1 ≤ (SnakeGameLogic.mk ⟨20, 20⟩ [⟨10, 10⟩, ⟨9, 10⟩] ⟨1, 1⟩
        .Right).pos_feed.x ∧
    (SnakeGameLogic.mk ⟨20, 20⟩ [⟨10, 10⟩, ⟨9, 10⟩] ⟨1, 1⟩ .Right).pos_feed.x ≤
      (SnakeGameLogic.mk ⟨20, 20⟩ [⟨9, 10⟩] ⟨10, 10⟩ .Right).field_size.x - 2 ∧
    1 ≤ (SnakeGameLogic.mk ⟨20, 20⟩ [⟨10, 10⟩, ⟨9, 10⟩] ⟨1, 1⟩
        .Right).pos_feed.y ∧
    (SnakeGameLogic.mk ⟨20, 20⟩ [⟨10, 10⟩, ⟨9, 10⟩] ⟨1, 1⟩ .Right).pos_feed.y ≤
      (SnakeGameLogic.mk ⟨20, 20⟩ [⟨9, 10⟩] ⟨10, 10⟩ .Right).field_size.y - 2 :=
  c4_food_placement (SnakeGameLogic.mk ⟨20, 20⟩ [⟨9, 10⟩] ⟨10, 10⟩ .Right)
    ⟨9, 10⟩ [] [(0, 0)] true
    (SnakeGameLogic.mk ⟨20, 20⟩ [⟨10, 10⟩, ⟨9, 10⟩] ⟨1, 1⟩ .Right)
    rfl (by decide) (by decide) (by decide) (by decide) (by decide) (by decide)
    (by decide)

/-- Counterexample for C7 as frozen: `min = (1,5)`, `max = (2,0)`
violates the componentwise precondition (5 > 0 on the y axis), yet the
derived lexicographic assertion passes (1 < 2) and the call silently
returns a value instead of failing fast. -/
theorem c7_counterexample :
    ¬((Size.mk 1 5).x ≤ (Size.mk 2 0).x ∧ (Size.mk 1 5).y ≤ (Size.mk 2 0).y) ∧
    Size.le_lex ⟨1, 5⟩ ⟨2, 0⟩ = true ∧
    (Coord.rand ⟨1, 5⟩ ⟨2, 0⟩ 0 0).isSome = true := by
  refine ⟨by decide, by decide, by decide⟩

/-- Claim C7 (amended): the precondition `rand` asserts is `min <= max`
in the derived lexicographic order on `Size`, not componentwise: every
call violating the lexicographic order fails fast on the assertion,
while a componentwise violation with `min.x < max.x` slips past it. -/
theorem c7_assert_is_lexicographic (min max : Size) (r0 r1 : Nat)
    (h : ¬(min.x < max.x ∨ (min.x = max.x ∧ min.y ≤ max.y))) :
    Coord.rand min max r0 r1 = none := by
  have hlex : Size.le_lex min max = false := by
    simp only [Size.le_lex, Bool.or_eq_false_iff, Bool.and_eq_false_iff,
      decide_eq_false_iff_not, not_lt]
    omega
  simp [Coord.rand, hlex]

/-- Witness for C7 (amended): swapping the sizes of the counterexample
violates the lexicographic order and the assertion fires. -/
theorem c7_assert_is_lexicographic_witness :
    Coord.rand ⟨2, 0⟩ ⟨1, 5⟩ 0 0 = none :=
  c7_assert_is_lexicographic ⟨2, 0⟩ ⟨1, 5⟩ 0 0 (by decide)

/-- Residue counting in an initial segment: among `0, …, N-1` exactly
`N / n` (plus one for the residues below `N % n`) numbers leave residue
`c` modulo `n`. -/
theorem card_range_filter_mod (n c : Nat) (hn : 0 < n) (hc : c < n) :
    ∀ N : Nat, ((Finset.range N).filter (fun r => r % n = c)).card =
      N / n + if c < N % n then 1 else 0 := by
  intro N
  induction N with
  | zero => simp
  | succ N ih =>
    have hmlt : N % n < n := Nat.mod_lt _ hn
    have key : ((N + 1) / n = N / n ∧ (N + 1) % n = N % n + 1) ∨
        (N % n + 1 = n ∧ (N + 1) / n = N / n + 1 ∧ (N + 1) % n = 0) := by
      have hdm := Nat.div_add_mod N n
      rcases Nat.lt_or_ge (N % n + 1) n with hlt | hge
      · left
        have hrep : N + 1 = n * (N / n) + (N % n + 1) := by omega
        constructor
        · rw [hrep, Nat.mul_add_div hn, Nat.div_eq_of_lt hlt]
          omega
        · rw [hrep, Nat.mul_add_mod, Nat.mod_eq_of_lt hlt]

      · right
        have heq : N % n + 1 = n := by omega
        have hrep : N + 1 = n * (N / n) + n := by omega
        refine ⟨heq, ?_, ?_⟩
        · rw [hrep, show n * (N / n) + n = n * (N / n + 1) by ring]
          exact Nat.mul_div_cancel_left _ hn
        · rw [hrep, Nat.mul_add_mod, Nat.mod_self]
    rw [Finset.range_succ, Finset.filter_insert]
    by_cases hNc : N % n = c
    · rw [if_pos hNc, Finset.card_insert_of_not_mem (by simp), ih]
      rcases key with ⟨k1, k2⟩ | ⟨k0, k1, k2⟩ <;> rw [k1, k2] <;>
        split_ifs <;> omega
    · rw [if_neg hNc, ih]
      rcases key with ⟨k1, k2⟩ | ⟨k0, k1, k2⟩ <;> rw [k1, k2] <;>
        split_ifs <;> omega

/-- The x-coordinate drawn by `Coord.rand` depends only on the first raw
draw: the two axes come from independent raw draws. -/
theorem Coord.rand_x_indep (min max : Size) (r0 r1 r1' : Nat) :
    (Coord.rand min max r0 r1).map Coord.x =
      (Coord.rand min max r0 r1').map Coord.x := by
  unfold Coord.rand
  by_cases h : Size.le_lex min max
  · simp only [if_pos h]
    by_cases h2 : sub16 (wrap16 (1 + max.x)) min.x = 0 ∨
        sub16 (wrap16 (1 + max.y)) min.y = 0
    · simp [h2]
    · simp [h2]
  · simp [h]

/-- The y-coordinate drawn by `Coord.rand` depends only on the second
raw draw: the two axes come from independent raw draws. -/
theorem Coord.rand_y_indep (min max : Size) (r0 r0' r1 : Nat) :
    (Coord.rand min max r0 r1).map Coord.y =
      (Coord.rand min max r0' r1).map Coord.y := by
  unfold Coord.rand
  by_cases h : Size.le_lex min max
  · simp only [if_pos h]
    by_cases h2 : sub16 (wrap16 (1 + max.x)) min.x = 0 ∨
        sub16 (wrap16 (1 + max.y)) min.y = 0
    · simp [h2]
    · simp [h2]
  · simp [h]

/-- The exact preimage count of the modulo-reduction sampling: a target
x-value `v` in `[min.x, max.x]` is hit by `65536 / n` raw u16 draws,
plus one more when `v - min.x` falls below `65536 % n`, where
`n = 1 + max.x - min.x`. -/
theorem xPreimages_eq (min max : Size) (v : Nat)
    (hx : min.x ≤ max.x) (hy : min.y ≤ max.y)
    (hx2 : max.x ≤ 65534) (hy2 : max.y ≤ 65534)
    (hv1 : min.x ≤ v) (hv2 : v ≤ max.x) :
    xPreimages min max v =
      65536 / (1 + max.x - min.x) +
        if v - min.x < 65536 % (1 + max.x - min.x) then 1 else 0 := by
  have hlex : Size.le_lex min max = true := by
    simp only [Size.le_lex, Bool.or_eq_true, Bool.and_eq_true, decide_eq_true_eq]
    omega
  have hn0 : sub16 (wrap16 (1 + max.x)) min.x = 1 + max.x - min.x := by
    simp only [sub16, wrap16]
    omega
  have hn1 : sub16 (wrap16 (1 + max.y)) min.y = 1 + max.y - min.y := by
    simp only [sub16, wrap16]
    omega
  have hn0pos : 0 < 1 + max.x - min.x := by omega
  have hfilter : ∀ r : Nat,
      ((Coord.rand min max r 0).map Coord.x = some v) ↔
        (r % (1 + max.x - min.x) = v - min.x) := by
    intro r
    simp only [Coord.rand, hlex, if_true, hn0, hn1]
    rw [if_neg (by omega)]
    simp only [Option.map_some', Option.some.injEq]
    have hr : r % (1 + max.x - min.x) < 1 + max.x - min.x :=
      Nat.mod_lt _ hn0pos
    simp only [wrap16]
    omega
  unfold xPreimages
  rw [Finset.filter_congr (fun r _ => by rw [hfilter r])]
  exact card_range_filter_mod (1 + max.x - min.x) (v - min.x) hn0pos
    (by omega) 65536

/-- The exact preimage count of the modulo-reduction sampling on the
other axis: a target y-value `v` in `[min.y, max.y]` is hit by
`65536 / n` raw u16 draws, plus one more when `v - min.y` falls below
`65536 % n`, where `n = 1 + max.y - min.y`. -/
theorem yPreimages_eq (min max : Size) (v : Nat)
    (hx : min.x ≤ max.x) (hy : min.y ≤ max.y)
    (hx2 : max.x ≤ 65534) (hy2 : max.y ≤ 65534)
    (hv1 : min.y ≤ v) (hv2 : v ≤ max.y) :
    yPreimages min max v =
      65536 / (1 + max.y - min.y) +
        if v - min.y < 65536 % (1 + max.y - min.y) then 1 else 0 := by
  have hlex : Size.le_lex min max = true := by
    simp only [Size.le_lex, Bool.or_eq_true, Bool.and_eq_true, decide_eq_true_eq]
    omega
  have hn0 : sub16 (wrap16 (1 + max.x)) min.x = 1 + max.x - min.x := by
    simp only [sub16, wrap16]
    omega
  have hn1 : sub16 (wrap16 (1 + max.y)) min.y = 1 + max.y - min.y := by
    simp only [sub16, wrap16]
    omega
  have hn1pos : 0 < 1 + max.y - min.y := by omega
  have hfilter : ∀ r : Nat,
      ((Coord.rand min max 0 r).map Coord.y = some v) ↔
        (r % (1 + max.y - min.y) = v - min.y) := by
    intro r
    simp only [Coord.rand, hlex, if_true, hn0, hn1]
    rw [if_neg (by omega)]
    simp only [Option.map_some', Option.some.injEq]
    have hr : r % (1 + max.y - min.y) < 1 + max.y - min.y :=
      Nat.mod_lt _ hn1pos
    simp only [wrap16]
    omega
  unfold yPreimages
  rw [Finset.filter_congr (fun r _ => by rw [hfilter r])]
  exact card_range_filter_mod (1 + max.y - min.y) (v - min.y) hn1pos
    (by omega) 65536

/-- Claim C8 (amended): the two axes of `Coord.rand` are independent
(the x-coordinate depends only on the first raw draw, the y-coordinate
only on the second), and for componentwise `min ≤ max` within u16 range
every x-value `vx` in `[min.x, max.x]` and every y-value `vy` in
`[min.y, max.y]` has either `⌊65536/n⌋` or `⌊65536/n⌋ + 1` raw
preimages on its axis — one extra exactly when the offset from the
axis minimum falls below `65536 % n`, `n` being the axis span
`1 + max.axis - min.axis` — so an axis is uniform only when its `n`
divides 65536; in general the `%`-reduction has modulo bias. -/
theorem c8_rand_distribution (min max : Size) (vx vy : Nat)
    (hx : min.x ≤ max.x) (hy : min.y ≤ max.y)
    (hx2 : max.x ≤ 65534) (hy2 : max.y ≤ 65534)
    (hvx1 : min.x ≤ vx) (hvx2 : vx ≤ max.x)
    (hvy1 : min.y ≤ vy) (hvy2 : vy ≤ max.y) :
    (∀ r0 r1 r1' : Nat, (Coord.rand min max r0 r1).map Coord.x =
        (Coord.rand min max r0 r1').map Coord.x) ∧
    (∀ r0 r0' r1 : Nat, (Coord.rand min max r0 r1).map Coord.y =
        (Coord.rand min max r0' r1).map Coord.y) ∧
    (xPreimages min max vx =
      65536 / (1 + max.x - min.x) +
        if vx - min.x < 65536 % (1 + max.x - min.x) then 1 else 0) ∧
    (yPreimages min max vy =
      65536 / (1 + max.y - min.y) +
        if vy - min.y < 65536 % (1 + max.y - min.y) then 1 else 0) :=
  ⟨fun r0 r1 r1' => Coord.rand_x_indep min max r0 r1 r1',
   fun r0 r0' r1 => Coord.rand_y_indep min max r0 r0' r1,
   xPreimages_eq min max vx hx hy hx2 hy2 hvx1 hvx2,
   yPreimages_eq min max vy hx hy hx2 hy2 hvy1 hvy2⟩

/-- Witness for C8 (amended): for `min = (0,0)`, `max = (2,2)` the
x-value 2 has exactly 21845 raw preimages and the y-value 0 has exactly
21846. -/
theorem c8_rand_distribution_witness :
    xPreimages ⟨0, 0⟩ ⟨2, 2⟩ 2 = 21845 ∧ yPreimages ⟨0, 0⟩ ⟨2, 2⟩ 0 = 21846 := by
  have h := c8_rand_distribution ⟨0, 0⟩ ⟨2, 2⟩ 2 0 (by decide) (by decide)
    (by decide) (by decide) (by decide) (by decide) (by decide) (by decide)
  refine ⟨?_, ?_⟩
  · rw [h.2.2.1]
    decide
  · rw [h.2.2.2]
    decide

/-- Counterexample for C8 as frozen: for `min = (0,0)`, `max = (2,2)`
(componentwise `min ≤ max`), the x-values 0 and 1 do NOT have the same
number of raw u16 preimages (21846 against 21845): the claimed equal
preimage count fails. -/
theorem c8_counterexample :
    ((Size.mk 0 0).x ≤ (Size.mk 2 2).x ∧ (Size.mk 0 0).y ≤ (Size.mk 2 2).y) ∧
    xPreimages ⟨0, 0⟩ ⟨2, 2⟩ 0 ≠ xPreimages ⟨0, 0⟩ ⟨2, 2⟩ 1 := by
  refine ⟨by decide, ?_⟩
  have h0 := xPreimages_eq ⟨0, 0⟩ ⟨2, 2⟩ 0 (by decide) (by decide) (by decide)
    (by decide) (by decide) (by decide)
  have h1 := xPreimages_eq ⟨0, 0⟩ ⟨2, 2⟩ 1 (by decide) (by decide) (by decide)
    (by decide) (by decide) (by decide)
  rw [h0, h1]
  decide

/-- Claim C10: on the self-collision death path (next head interior, not
on food, but clashing with a surviving body cell) the state has already
been mutated when `move` returns `false`: the new head is pushed, the
old tail is popped, and the resulting dead state differs from the
pre-tick state. -/
theorem c10_self_collision_mutates (s : SnakeGameLogic) (head : Coord)
    (rest : List Coord) (rngs : List (Nat × Nat))
    (hb : s.body = head :: rest)
    (hinner : s.is_inner_field (head.adjascent s.dir) = true)
    (hfood : head.adjascent s.dir ≠ s.pos_feed)
    (hcol : head.adjascent s.dir ∈ s.body.dropLast) :
    s.move rngs =
      some (false, { s with body := (head.adjascent s.dir :: s.body).dropLast }) ∧
    { s with body := (head.adjascent s.dir :: s.body).dropLast } ≠ s := by
  constructor
  · rw [SnakeGameLogic.move_step s head rest rngs hb hinner hfood]
    simp [hcol]
  · intro h
    have hbody := congrArg SnakeGameLogic.body h
    simp only at hbody
    rw [hb, List.dropLast_cons₂] at hbody
    have hhd : head.adjascent s.dir = head := by
      have := congrArg List.head? hbody
      simpa using this
    exact Coord.adjascent_ne head s.dir hhd

set_option maxRecDepth 8192 in
/-- Witness for C10: a snake looped as
(5,5),(6,5),(6,6),(5,6),(4,6) moving Down bites the body cell (5,6)
that survives the tail pop; `move` reports death but the returned state
already carries the pushed head and popped tail, and differs from the
pre-tick state. -/
theorem c10_self_collision_mutates_witness :
    (SnakeGameLogic.mk ⟨20, 20⟩ [⟨5, 5⟩, ⟨6, 5⟩, ⟨6, 6⟩, ⟨5, 6⟩, ⟨4, 6⟩]
        ⟨10, 10⟩ .Down).move [] =
      some (false, SnakeGameLogic.mk ⟨20, 20⟩
        [⟨5, 6⟩, ⟨5, 5⟩, ⟨6, 5⟩, ⟨6, 6⟩, ⟨5, 6⟩] ⟨10, 10⟩ .Down) ∧
    SnakeGameLogic.mk ⟨20, 20⟩ [⟨5, 6⟩, ⟨5, 5⟩, ⟨6, 5⟩, ⟨6, 6⟩, ⟨5, 6⟩]
        ⟨10, 10⟩ .Down ≠
      SnakeGameLogic.mk ⟨20, 20⟩ [⟨5, 5⟩, ⟨6, 5⟩, ⟨6, 6⟩, ⟨5, 6⟩, ⟨4, 6⟩]
        ⟨10, 10⟩ .Down :=
  c10_self_collision_mutates
    (SnakeGameLogic.mk ⟨20, 20⟩ [⟨5, 5⟩, ⟨6, 5⟩, ⟨6, 6⟩, ⟨5, 6⟩, ⟨4, 6⟩]
      ⟨10, 10⟩ .Down)
    ⟨5, 5⟩ [⟨6, 5⟩, ⟨6, 6⟩, ⟨5, 6⟩, ⟨4, 6⟩] [] rfl
    (by decide) (by decide) (by decide)
